import Mathlib

/-!
Verification development for the ItIsPay Go client library.

The library is a typed HTTP request/response marshaling layer: a `Client`
holding a base URL and an API key, one private request-execution routine
(`doRequest`) and seven public endpoint methods.  This file shallow-embeds
the client code: the HTTP transport is passed in explicitly as a function
from requests to results, stdout and outgoing HTTP sends are recorded as an
explicit event list, Go float64 values are modelled as rationals (no claim
depends on float rounding or rendering), Go time.Time is modelled as a UTC
civil datetime (the library only formats and parses RFC 3339 text), and the
relevant behaviour of the standard encoding/json package is modelled by an
executable JSON parser, renderer and per-struct field decoders following the
struct tags in the source.
-/

/-! ## Time model (Go time.Time restricted to UTC)

Go `time.Time` zero value is January 1 of year 1, 00:00:00 UTC; `IsZero`
tests exactly that instant.  The client only ever calls `IsZero`,
`Format(time.RFC3339)` and (inside `encoding/json`) RFC 3339 parsing, so a
UTC civil datetime is a faithful model; non-UTC offsets are not modelled. -/

structure GoTime where
  year : Nat
  month : Nat
  day : Nat
  hour : Nat
  minute : Nat
  second : Nat
deriving DecidableEq, Repr

def GoTime.zero : GoTime := ⟨1, 1, 1, 0, 0, 0⟩

def GoTime.IsZero (t : GoTime) : Bool := t = GoTime.zero

def pad2 (n : Nat) : String :=
  if n < 10 then "0" ++ toString n else toString n

def pad4 (n : Nat) : String :=
  if n < 10 then "000" ++ toString n
  else if n < 100 then "00" ++ toString n
  else if n < 1000 then "0" ++ toString n
  else toString n

/-- Go `t.Format(time.RFC3339)` for a UTC time. -/
def GoTime.formatRFC3339 (t : GoTime) : String :=
  pad4 t.year ++ "-" ++ pad2 t.month ++ "-" ++ pad2 t.day ++ "T" ++
    pad2 t.hour ++ ":" ++ pad2 t.minute ++ ":" ++ pad2 t.second ++ "Z"

def isLeapYear (y : Nat) : Bool :=
  (y % 4 = 0 && y % 100 != 0) || y % 400 = 0

def daysInMonth (y mo : Nat) : Nat :=
  if mo = 2 then (if isLeapYear y then 29 else 28)
  else if mo = 4 ∨ mo = 6 ∨ mo = 9 ∨ mo = 11 then 30
  else 31

def digitVal (c : Char) : Option Nat :=
  if c.isDigit then some (c.toNat - 48) else none

def twoDigits (a b : Char) : Option Nat := do
  let x ← digitVal a
  let y ← digitVal b
  pure (10 * x + y)

def fourDigits (a b c d : Char) : Option Nat := do
  let x ← twoDigits a b
  let y ← twoDigits c d
  pure (100 * x + y)

/-- RFC 3339 timestamp parsing as done by `encoding/json` for `time.Time`
fields.  The model accepts the UTC form `YYYY-MM-DDTHH:MM:SSZ` (fractional
seconds and numeric offsets are not modelled) and validates the calendar
ranges like Go does. -/
def parseRFC3339 (s : String) : Option GoTime :=
  match s.data with
  | [y1, y2, y3, y4, '-', o1, o2, '-', d1, d2, 'T',
     h1, h2, ':', i1, i2, ':', s1, s2, 'Z'] => do
    let y ← fourDigits y1 y2 y3 y4
    let mo ← twoDigits o1 o2
    let d ← twoDigits d1 d2
    let h ← twoDigits h1 h2
    let mi ← twoDigits i1 i2
    let se ← twoDigits s1 s2
    if 1 ≤ mo ∧ mo ≤ 12 ∧ 1 ≤ d ∧ d ≤ daysInMonth y mo ∧
        h < 24 ∧ mi < 60 ∧ se < 60 then
      pure ⟨y, mo, d, h, mi, se⟩
    else none
  | _ => none

/-! ## JSON values

Numbers are modelled as rationals: the client never does float arithmetic,
and no claim depends on floating-point rounding or on the textual rendering
of non-integral numbers. -/

inductive Json where
  | null
  | bool (b : Bool)
  | num (q : Rat)
  | str (s : String)
  | arr (elems : List Json)
  | obj (members : List (String × Json))
deriving Repr

/-! ## JSON parser (model of encoding/json syntax acceptance)

A fuelled recursive-descent parser over the character list; the fuel chosen
by `parseJsonStr` is large enough for every input because every two nested
calls consume at least one character. -/

def skipWs : List Char → List Char
  | c :: cs =>
    if c = ' ' ∨ c = '\t' ∨ c = '\n' ∨ c = '\r' then skipWs cs else c :: cs
  | [] => []

def hexVal (c : Char) : Option Nat :=
  if c.isDigit then some (c.toNat - 48)
  else if 'a' ≤ c ∧ c ≤ 'f' then some (c.toNat - 97 + 10)
  else if 'A' ≤ c ∧ c ≤ 'F' then some (c.toNat - 65 + 10)
  else none

/-- Characters of a JSON string literal up to the closing quote.  Handles
the escape sequences accepted by Go (surrogate pairs are not modelled). -/
def parseStringChars : List Char → Option (List Char × List Char)
  | [] => none
  | '"' :: rest => some ([], rest)
  | '\\' :: '"' :: rest => (parseStringChars rest).map fun p => ('"' :: p.1, p.2)
  | '\\' :: '\\' :: rest => (parseStringChars rest).map fun p => ('\\' :: p.1, p.2)
  | '\\' :: '/' :: rest => (parseStringChars rest).map fun p => ('/' :: p.1, p.2)
  | '\\' :: 'b' :: rest => (parseStringChars rest).map fun p => ('\x08' :: p.1, p.2)
  | '\\' :: 'f' :: rest => (parseStringChars rest).map fun p => ('\x0c' :: p.1, p.2)
  | '\\' :: 'n' :: rest => (parseStringChars rest).map fun p => ('\n' :: p.1, p.2)
  | '\\' :: 'r' :: rest => (parseStringChars rest).map fun p => ('\r' :: p.1, p.2)
  | '\\' :: 't' :: rest => (parseStringChars rest).map fun p => ('\t' :: p.1, p.2)
  | '\\' :: 'u' :: a :: b :: c :: d :: rest => do
    let x ← hexVal a
    let y ← hexVal b
    let z ← hexVal c
    let w ← hexVal d
    let n := ((x * 16 + y) * 16 + z) * 16 + w
    (parseStringChars rest).map fun p => (Char.ofNat n :: p.1, p.2)
  | '\\' :: _ => none
  | c :: rest =>
    if c.toNat < 32 then none
    else (parseStringChars rest).map fun p => (c :: p.1, p.2)

def takeDigits : List Char → (List Char × List Char)
  | [] => ([], [])
  | c :: cs =>
    if c.isDigit then
      let p := takeDigits cs
      (c :: p.1, p.2)
    else ([], c :: cs)

def digitsToNat (ds : List Char) : Nat :=
  ds.foldl (fun a c => a * 10 + (c.toNat - 48)) 0

/-- JSON number parsing into a rational.  Go rejects leading zeros and
empty digit runs; the model does the same. -/
def parseNumber (cs : List Char) : Option (Rat × List Char) :=
  let (neg, cs1) :=
    match cs with
    | '-' :: rest => (true, rest)
    | _ => (false, cs)
  let (ints, cs2) := takeDigits cs1
  if ints = [] then none
  else if ints.length > 1 ∧ ints.headD '0' = '0' then none
  else
    let (fracs, cs3) :=
      match cs2 with
      | '.' :: rest => takeDigits rest
      | _ => ([], cs2)
    if cs2 ≠ [] ∧ cs2.headD ' ' = '.' ∧ fracs = [] then none
    else
      let mantissa : Int := Int.ofNat (digitsToNat (ints ++ fracs))
      let mantissa := if neg then -mantissa else mantissa
      let base : Rat :=
        if fracs = [] then (mantissa : Rat)
        else (mantissa : Rat) / ((10 : Rat) ^ fracs.length)
      match cs3 with
      | 'e' :: rest => parseExponentPart base rest
      | 'E' :: rest => parseExponentPart base rest
      | _ => some (base, cs3)
where
  parseExponentPart (base : Rat) (rest : List Char) : Option (Rat × List Char) :=
    let (eneg, rest1) :=
      match rest with
      | '-' :: r => (true, r)
      | '+' :: r => (false, r)
      | _ => (false, rest)
    let (eds, rest2) := takeDigits rest1
    if eds = [] then none
    else
      let e := digitsToNat eds
      let v := if eneg then base / ((10 : Rat) ^ e) else base * ((10 : Rat) ^ e)
      some (v, rest2)

mutual

def parseValue : Nat → List Char → Option (Json × List Char)
  | 0, _ => none
  | fuel + 1, cs =>
    match skipWs cs with
    | 'n' :: 'u' :: 'l' :: 'l' :: rest => some (.null, rest)
    | 't' :: 'r' :: 'u' :: 'e' :: rest => some (.bool true, rest)
    | 'f' :: 'a' :: 'l' :: 's' :: 'e' :: rest => some (.bool false, rest)
    | '"' :: rest => (parseStringChars rest).map fun p => (.str ⟨p.1⟩, p.2)
    | '[' :: rest =>
      (match skipWs rest with
       | ']' :: rest2 => some (.arr [], rest2)
       | other => (parseArrayItems fuel other).map fun p => (.arr p.1, p.2))
    | '{' :: rest =>
      (match skipWs rest with
       | '}' :: rest2 => some (.obj [], rest2)
       | other => (parseObjMembers fuel other).map fun p => (.obj p.1, p.2))
    | c :: rest =>
      if c = '-' ∨ c.isDigit then
        (parseNumber (c :: rest)).map fun p => (.num p.1, p.2)
      else none
    | [] => none

def parseArrayItems : Nat → List Char → Option (List Json × List Char)
  | 0, _ => none
  | fuel + 1, cs => do
    let (v, rest) ← parseValue fuel cs
    match skipWs rest with
    | ',' :: rest2 =>
      (parseArrayItems fuel rest2).map fun p => (v :: p.1, p.2)
    | ']' :: rest2 => some ([v], rest2)
    | _ => none

def parseObjMembers : Nat → List Char → Option (List (String × Json) × List Char)
  | 0, _ => none
  | fuel + 1, cs =>
    match skipWs cs with
    | '"' :: rest => do
      let (kchars, rest1) ← parseStringChars rest
      match skipWs rest1 with
      | ':' :: rest2 => do
        let (v, rest3) ← parseValue fuel rest2
        match skipWs rest3 with
        | ',' :: rest4 =>
          (parseObjMembers fuel rest4).map fun p => ((⟨kchars⟩, v) :: p.1, p.2)
        | '}' :: rest4 => some ([(⟨kchars⟩, v)], rest4)
        | _ => none
      | _ => none
    | _ => none

end

/-- Model of syntactic JSON acceptance by `encoding/json.Unmarshal`:
parse one value, then only whitespace may remain. -/
def parseJsonStr (s : String) : Option Json :=
  match parseValue (2 * s.length + 4) s.data with
  | some (j, rest) => if skipWs rest = [] then some j else none
  | none => none

/-! ## JSON renderer (model of encoding/json.Marshal output) -/

def hexLowerDigit (n : Nat) : Char :=
  if n < 10 then Char.ofNat (48 + n) else Char.ofNat (97 + n - 10)

def hexUpperDigit (n : Nat) : Char :=
  if n < 10 then Char.ofNat (48 + n) else Char.ofNat (65 + n - 10)

def hex4Lower (n : Nat) : String :=
  ⟨[hexLowerDigit (n / 4096 % 16), hexLowerDigit (n / 256 % 16),
    hexLowerDigit (n / 16 % 16), hexLowerDigit (n % 16)]⟩

/-- String escaping as in Go json.Marshal (HTML escaping on by default). -/
def escapeJsonChar (c : Char) : String :=
  if c = '"' then "\\\""
  else if c = '\\' then "\\\\"
  else if c = '\n' then "\\n"
  else if c = '\r' then "\\r"
  else if c = '\t' then "\\t"
  else if c.toNat < 32 ∨ c = '<' ∨ c = '>' ∨ c = '&' then "\\u" ++ hex4Lower c.toNat
  else String.singleton c

def renderJsonString (s : String) : String :=
  "\"" ++ String.join (s.data.map escapeJsonChar) ++ "\""

/-- Rendering of a JSON number.  Go renders float64 values with the
shortest round-tripping decimal form; every number a claim ever inspects
is integral, so only the integral case is rendered faithfully and the
non-integral case is rendered as an exact fraction. -/
def renderRat (q : Rat) : String :=
  if q.den = 1 then toString q.num else toString q.num ++ "/" ++ toString q.den

mutual

def renderJson : Json → String
  | .null => "null"
  | .bool true => "true"
  | .bool false => "false"
  | .num q => renderRat q
  | .str s => renderJsonString s
  | .arr xs => "[" ++ renderJsonItems xs ++ "]"
  | .obj ms => "\x7b" ++ renderJsonMembers ms ++ "\x7d"

def renderJsonItems : List Json → String
  | [] => ""
  | [x] => renderJson x
  | x :: xs => renderJson x ++ "," ++ renderJsonItems xs

def renderJsonMembers : List (String × Json) → String
  | [] => ""
  | [(k, v)] => renderJsonString k ++ ":" ++ renderJson v
  | (k, v) :: ms => renderJsonString k ++ ":" ++ renderJson v ++ "," ++ renderJsonMembers ms

end

/-! Indented rendering, as produced by Go json.MarshalIndent with an empty
line prefix and a two-space indent. -/

mutual

def renderJsonIndent (cur : String) : Json → String
  | .arr [] => "[]"
  | .obj [] => "\x7b\x7d"
  | .arr xs => "[\n" ++ renderJsonIndentItems (cur ++ "  ") xs ++ "\n" ++ cur ++ "]"
  | .obj ms => "\x7b\n" ++ renderJsonIndentMembers (cur ++ "  ") ms ++ "\n" ++ cur ++ "\x7d"
  | j => renderJson j

def renderJsonIndentItems (cur : String) : List Json → String
  | [] => ""
  | [x] => cur ++ renderJsonIndent cur x
  | x :: xs => cur ++ renderJsonIndent cur x ++ ",\n" ++ renderJsonIndentItems cur xs

def renderJsonIndentMembers (cur : String) : List (String × Json) → String
  | [] => ""
  | [(k, v)] => cur ++ renderJsonString k ++ ": " ++ renderJsonIndent cur v
  | (k, v) :: ms =>
    cur ++ renderJsonString k ++ ": " ++ renderJsonIndent cur v ++ ",\n" ++
      renderJsonIndentMembers cur ms

end

/-! ## URL escaping (model of net/url) -/

/-- UTF-8 bytes of a code point, as natural numbers below 256. -/
def utf8Bytes (n : Nat) : List Nat :=
  if n < 128 then [n]
  else if n < 2048 then [192 + n / 64, 128 + n % 64]
  else if n < 65536 then [224 + n / 4096, 128 + n / 64 % 64, 128 + n % 64]
  else [240 + n / 262144, 128 + n / 4096 % 64, 128 + n / 64 % 64, 128 + n % 64]

def percentByte (b : Nat) : String :=
  ⟨['%', hexUpperDigit (b / 16), hexUpperDigit (b % 16)]⟩

/-- Go url.QueryEscape: keeps alphanumerics and `-_.~`, turns a space into
a plus sign and percent-encodes every other byte. -/
def queryEscape (s : String) : String :=
  String.join (s.data.map fun c =>
    if c.isAlphanum ∨ c = '-' ∨ c = '_' ∨ c = '.' ∨ c = '~' then String.singleton c
    else if c = ' ' then "+"
    else String.join ((utf8Bytes c.toNat).map percentByte))

/-- Go url.PathEscape (path-segment escaping): keeps alphanumerics,
`-_.~` and the sub-delimiters allowed inside a path segment, and
percent-encodes everything else, in particular `/`, `;`, `,` and `?`. -/
def pathEscape (s : String) : String :=
  String.join (s.data.map fun c =>
    if c.isAlphanum ∨ c = '-' ∨ c = '_' ∨ c = '.' ∨ c = '~' ∨
        c = '$' ∨ c = '&' ∨ c = '+' ∨ c = ':' ∨ c = '=' ∨ c = '@' then
      String.singleton c
    else String.join ((utf8Bytes c.toNat).map percentByte))

/-! ## url.Values (single-valued) and Encode -/

/-- Lexicographic comparison of character lists, the order used by Go
sort.Strings on the (ASCII) query parameter keys. -/
def charListLe : List Char → List Char → Bool
  | [], _ => true
  | _ :: _, [] => false
  | a :: as, b :: bs =>
    if a < b then true else if b < a then false else charListLe as bs

def stringLe (a b : String) : Bool := charListLe a.data b.data

def keyLE (a b : String × String) : Prop := stringLe a.1 b.1 = true

instance : DecidableRel keyLE :=
  fun a b => inferInstanceAs (Decidable (stringLe a.1 b.1 = true))

theorem charListLe_total : ∀ x y, charListLe x y = true ∨ charListLe y x = true := by
  intro x
  induction x with
  | nil => intro y; left; rfl
  | cons a as ih =>
    intro y
    cases y with
    | nil => right; rfl
    | cons b bs =>
      rcases lt_trichotomy a b with hab | hab | hab
      · left; simp [charListLe, hab]
      · subst hab
        rcases ih bs with h | h
        · left; simp [charListLe, h]
        · right; simp [charListLe, h]
      · right; simp [charListLe, hab]

theorem charListLe_trans :
    ∀ x y z, charListLe x y = true → charListLe y z = true → charListLe x z = true := by
  intro x
  induction x with
  | nil => intro y z _ _; rfl
  | cons a as ih =>
    intro y z h1 h2
    cases y with
    | nil => simp [charListLe] at h1
    | cons b bs =>
      cases z with
      | nil => simp [charListLe] at h2
      | cons c cs =>
        rcases lt_trichotomy a b with hab | hab | hab
        · rcases lt_trichotomy b c with hbc | hbc | hbc
          · simp [charListLe, lt_trans hab hbc]
          · subst hbc; simp [charListLe, hab]
          · simp [charListLe, asymm hbc, hbc] at h2
        · subst hab
          rcases lt_trichotomy a c with hac | hac | hac
          · simp [charListLe, hac]
          · subst hac
            simp only [charListLe, lt_irrefl, if_false] at h1 h2 ⊢
            exact ih bs cs h1 h2
          · simp [charListLe, asymm hac, hac] at h2
        · simp [charListLe, asymm hab, hab] at h1

instance : IsTotal (String × String) keyLE :=
  ⟨fun a b => charListLe_total a.1.data b.1.data⟩

instance : IsTrans (String × String) keyLE :=
  ⟨fun a b c hab hbc => charListLe_trans a.1.data b.1.data c.1.data hab hbc⟩

def sortPairs (vs : List (String × String)) : List (String × String) :=
  List.insertionSort keyLE vs

/-- Go url.Values.Encode for single-valued keys: sort the keys
(sort.Strings), then join `escape(k)=escape(v)` pairs with ampersands. -/
def encodeQueryValues (vs : List (String × String)) : String :=
  String.intercalate "&" ((sortPairs vs).map fun kv =>
    queryEscape kv.1 ++ "=" ++ queryEscape kv.2)

/-! ## Data model (types.go) -/

/-! Invoice status constants. -/

def StatusNew : String := "new"

def StatusPending : String := "pending"

def StatusCompleted : String := "completed"

def StatusExpired : String := "expired"

def StatusCancelled : String := "cancelled"

def StatusPaidPartial : String := "paid_partial"

/-! Sort order and sort field constants. -/

def SortOrderAsc : String := "asc"

def SortOrderDesc : String := "desc"

def SortByCreatedAt : String := "created_at"

def SortByUpdatedAt : String := "updated_at"

def SortByFiatAmount : String := "fiat_amount"

def SortByCryptoAmount : String := "crypto_amount"

/-- CreateInvoiceRequest; Go pointer fields become Option (nil pointer =
none), float64 becomes Rat and int becomes Int. -/
structure CreateInvoiceRequest where
  OrderID : String
  FiatAmount : Option Rat
  FiatCurrency : String
  CryptoAmount : Option Rat
  Currency : String
  AllowedErrorPercent : Option Int
  OrderName : String
  ExpireMin : Option Int
  CallbackURL : String
deriving DecidableEq, Repr

structure UpdateInvoiceRequest where
  Status : String
deriving DecidableEq, Repr

structure ListInvoicesParams where
  Page : Int
  PageSize : Int
  Status : String
  Currency : String
  CreatedAfter : GoTime
  CreatedBefore : GoTime
  SortBy : String
  SortOrder : String
deriving DecidableEq, Repr

structure WebhookSimulateRequest where
  InvoiceID : String
  Status : String
deriving DecidableEq, Repr

/-- BlockchainNetwork; the Go field named Type is a reserved word in Lean
and is written NetworkType here. -/
structure BlockchainNetwork where
  Name : String
  NetworkType : String
deriving DecidableEq, Repr

structure BlockchainDetails where
  WalletID : String
  AccountID : String
  Currency : String
  BlockchainAddress : String
  BlockchainNetwork : Option BlockchainNetwork
  QRCode : String
deriving DecidableEq, Repr

structure Invoice where
  InvoiceID : String
  UserID : String
  ProjectID : String
  OrderID : String
  FiatAmount : Rat
  FiatCurrency : String
  Currency : String
  CryptoAmount : Rat
  CryptoAmountInUnits : Option Int
  ActualCryptoAmountPaid : Rat
  ActualCryptoAmountPaidInUnits : Int
  AllowedErrorPercent : Int
  OrderName : String
  ExpireMin : Int
  CallbackURL : String
  Status : String
  CreatedAt : GoTime
  UpdatedAt : GoTime
  ExpiresAt : GoTime
  BlockchainDetails : Option BlockchainDetails
deriving DecidableEq, Repr

structure PaginationInfo where
  CurrentPage : Int
  PageSize : Int
  TotalPages : Int
  TotalRecords : Int
  HasNext : Bool
  HasPrevious : Bool
deriving DecidableEq, Repr

structure ListInvoicesResponse where
  Data : List Invoice
  Pagination : PaginationInfo
deriving DecidableEq, Repr

structure Currency where
  CurrencyCode : String
  IsCrypto : Bool
  Precision : Int
  IsActive : Bool
  WalletPattern : String
  Network : String
  CreatedAt : GoTime
deriving DecidableEq, Repr

structure CurrenciesResponse where
  Currencies : List Currency
deriving DecidableEq, Repr

/-- RatesResponse; the Go map from currency code to float64 rate is
modelled as an association list in JSON member order. -/
structure RatesResponse where
  Rates : List (String × Rat)
deriving DecidableEq, Repr

structure WebhookSimulateResponse where
  Status : String
  Message : String
deriving DecidableEq, Repr

/-- ErrorResponse: the structured error payload shape. -/
structure ErrorResponse where
  Error : String
  Message : String
deriving DecidableEq, Repr

/-- APIError: the typed API error carrier. -/
structure APIError where
  StatusCode : Nat
  ErrorType : String
  Message : String
deriving DecidableEq, Repr

/-- The Error method of APIError from types.go. -/
def APIError.Error (e : APIError) : String :=
  if e.Message ≠ "" then e.Message else e.ErrorType

/-! ## Encoders (model of json.Marshal on the request structs)

Fields are emitted in struct order; a field tagged omitempty is dropped
when it is a nil pointer or an empty string, and is emitted otherwise,
also when it points at an explicit zero value. -/

def encodeCreateInvoiceRequest (r : CreateInvoiceRequest) : List (String × Json) :=
  [("order_id", .str r.OrderID)]
  ++ (match r.FiatAmount with
      | some q => [("fiat_amount", Json.num q)]
      | none => [])
  ++ (if r.FiatCurrency = "" then [] else [("fiat_currency", .str r.FiatCurrency)])
  ++ (match r.CryptoAmount with
      | some q => [("crypto_amount", Json.num q)]
      | none => [])
  ++ [("currency", .str r.Currency)]
  ++ (match r.AllowedErrorPercent with
      | some n => [("allowed_error_percent", Json.num (n : Rat))]
      | none => [])
  ++ (if r.OrderName = "" then [] else [("order_name", .str r.OrderName)])
  ++ (match r.ExpireMin with
      | some n => [("expire_min", Json.num (n : Rat))]
      | none => [])
  ++ (if r.CallbackURL = "" then [] else [("callback_url", .str r.CallbackURL)])

def marshalCreateInvoiceRequest (r : CreateInvoiceRequest) : String :=
  renderJson (.obj (encodeCreateInvoiceRequest r))

def marshalIndentCreateInvoiceRequest (r : CreateInvoiceRequest) : String :=
  renderJsonIndent "" (.obj (encodeCreateInvoiceRequest r))

def encodeUpdateInvoiceRequest (r : UpdateInvoiceRequest) : List (String × Json) :=
  [("status", .str r.Status)]

def marshalUpdateInvoiceRequest (r : UpdateInvoiceRequest) : String :=
  renderJson (.obj (encodeUpdateInvoiceRequest r))

def encodeWebhookSimulateRequest (r : WebhookSimulateRequest) : List (String × Json) :=
  [("invoice_id", .str r.InvoiceID), ("status", .str r.Status)]

def marshalWebhookSimulateRequest (r : WebhookSimulateRequest) : String :=
  renderJson (.obj (encodeWebhookSimulateRequest r))

/-! ## Decoders (model of json.Unmarshal into the response structs)

Go decodes a JSON object into a struct by walking the members in order:
a member whose key matches a field tag is decoded into that field (type
mismatch is an error, null is a no-op for value fields and clears pointer
fields), unknown keys are ignored, later duplicates overwrite, and missing
keys leave the zero value. -/

def decodeFields {α : Type} (set : α → String × Json → Option α) :
    α → List (String × Json) → Option α
  | a, [] => some a
  | a, kv :: rest =>
    match set a kv with
    | none => none
    | some a2 => decodeFields set a2 rest

def setStr {α : Type} (v : Json) (f : String → α) (a : α) : Option α :=
  match v with
  | .null => some a
  | .str s => some (f s)
  | _ => none

def setBool {α : Type} (v : Json) (f : Bool → α) (a : α) : Option α :=
  match v with
  | .null => some a
  | .bool b => some (f b)
  | _ => none

def setNum {α : Type} (v : Json) (f : Rat → α) (a : α) : Option α :=
  match v with
  | .null => some a
  | .num q => some (f q)
  | _ => none

/-- Go errors when a JSON number with a fractional part is decoded into an
integer field. -/
def setInt {α : Type} (v : Json) (f : Int → α) (a : α) : Option α :=
  match v with
  | .null => some a
  | .num q => if q.den = 1 then some (f q.num) else none
  | _ => none

def setTime {α : Type} (v : Json) (f : GoTime → α) (a : α) : Option α :=
  match v with
  | .null => some a
  | .str s => (parseRFC3339 s).map f
  | _ => none

def errorResponseSetField (e : ErrorResponse) : String × Json → Option ErrorResponse
  | ("error", v) => setStr v (fun s => { e with Error := s }) e
  | ("message", v) => setStr v (fun s => { e with Message := s }) e
  | _ => some e

def ErrorResponse.zeroValue : ErrorResponse := ⟨"", ""⟩

def decodeErrorResponse (j : Json) : Option ErrorResponse :=
  match j with
  | .null => some ErrorResponse.zeroValue
  | .obj ms => decodeFields errorResponseSetField ErrorResponse.zeroValue ms
  | _ => none

/-- json.Unmarshal of a response body into ErrorResponse, as done by
doRequest for an error-status response. -/
def unmarshalErrorResponse (s : String) : Option ErrorResponse :=
  (parseJsonStr s).bind decodeErrorResponse

def currencySetField (c : Currency) : String × Json → Option Currency
  | ("currency_code", v) => setStr v (fun s => { c with CurrencyCode := s }) c
  | ("is_crypto", v) => setBool v (fun b => { c with IsCrypto := b }) c
  | ("precision", v) => setInt v (fun n => { c with Precision := n }) c
  | ("is_active", v) => setBool v (fun b => { c with IsActive := b }) c
  | ("wallet_pattern", v) => setStr v (fun s => { c with WalletPattern := s }) c
  | ("network", v) => setStr v (fun s => { c with Network := s }) c
  | ("created_at", v) => setTime v (fun t => { c with CreatedAt := t }) c
  | _ => some c

def Currency.zeroValue : Currency := ⟨"", false, 0, false, "", "", GoTime.zero⟩

def decodeCurrency (j : Json) : Option Currency :=
  match j with
  | .null => some Currency.zeroValue
  | .obj ms => decodeFields currencySetField Currency.zeroValue ms
  | _ => none

/-- Element-wise decoding of a JSON array, in array order. -/
def decodeList {α : Type} (f : Json → Option α) : List Json → Option (List α)
  | [] => some []
  | x :: xs =>
    match f x, decodeList f xs with
    | some a, some rest => some (a :: rest)
    | _, _ => none

/-- json.Unmarshal of a response body into a Go slice of Currency values;
a null body leaves the nil slice. -/
def unmarshalCurrencyList (s : String) : Option (List Currency) :=
  match parseJsonStr s with
  | some (.arr xs) => decodeList decodeCurrency xs
  | some .null => some []
  | _ => none

def BlockchainNetwork.zeroValue : BlockchainNetwork := ⟨"", ""⟩

def blockchainNetworkSetField (n : BlockchainNetwork) :
    String × Json → Option BlockchainNetwork
  | ("name", v) => setStr v (fun s => { n with Name := s }) n
  | ("type", v) => setStr v (fun s => { n with NetworkType := s }) n
  | _ => some n

def BlockchainDetails.zeroValue : BlockchainDetails := ⟨"", "", "", "", none, ""⟩

def blockchainDetailsSetField (d : BlockchainDetails) :
    String × Json → Option BlockchainDetails
  | ("walletId", v) => setStr v (fun s => { d with WalletID := s }) d
  | ("accountId", v) => setStr v (fun s => { d with AccountID := s }) d
  | ("currency", v) => setStr v (fun s => { d with Currency := s }) d
  | ("blockchainAddress", v) => setStr v (fun s => { d with BlockchainAddress := s }) d
  | ("blockchainNetwork", v) =>
    (match v with
     | .null => some { d with BlockchainNetwork := none }
     | .obj ms =>
       (decodeFields blockchainNetworkSetField
           (d.BlockchainNetwork.getD BlockchainNetwork.zeroValue) ms).map
         fun n => { d with BlockchainNetwork := some n }
     | _ => none)
  | ("qrcode", v) => setStr v (fun s => { d with QRCode := s }) d
  | _ => some d

def Invoice.zeroValue : Invoice :=
  ⟨"", "", "", "", 0, "", "", 0, none, 0, 0, 0, "", 0, "", "",
   GoTime.zero, GoTime.zero, GoTime.zero, none⟩

def invoiceSetField (i : Invoice) : String × Json → Option Invoice
  | ("invoice_id", v) => setStr v (fun s => { i with InvoiceID := s }) i
  | ("user_id", v) => setStr v (fun s => { i with UserID := s }) i
  | ("project_id", v) => setStr v (fun s => { i with ProjectID := s }) i
  | ("order_id", v) => setStr v (fun s => { i with OrderID := s }) i
  | ("fiat_amount", v) => setNum v (fun q => { i with FiatAmount := q }) i
  | ("fiat_currency", v) => setStr v (fun s => { i with FiatCurrency := s }) i
  | ("currency", v) => setStr v (fun s => { i with Currency := s }) i
  | ("crypto_amount", v) => setNum v (fun q => { i with CryptoAmount := q }) i
  | ("crypto_amount_in_units", v) =>
    (match v with
     | .null => some { i with CryptoAmountInUnits := none }
     | .num q => if q.den = 1 then some { i with CryptoAmountInUnits := some q.num } else none
     | _ => none)
  | ("actual_crypto_amount_paid", v) =>
    setNum v (fun q => { i with ActualCryptoAmountPaid := q }) i
  | ("actual_crypto_amount_paid_in_units", v) =>
    setInt v (fun n => { i with ActualCryptoAmountPaidInUnits := n }) i
  | ("allowed_error_percent", v) =>
    setInt v (fun n => { i with AllowedErrorPercent := n }) i
  | ("order_name", v) => setStr v (fun s => { i with OrderName := s }) i
  | ("expire_min", v) => setInt v (fun n => { i with ExpireMin := n }) i
  | ("callback_url", v) => setStr v (fun s => { i with CallbackURL := s }) i
  | ("status", v) => setStr v (fun s => { i with Status := s }) i
  | ("created_at", v) => setTime v (fun t => { i with CreatedAt := t }) i
  | ("updated_at", v) => setTime v (fun t => { i with UpdatedAt := t }) i
  | ("expires_at", v) => setTime v (fun t => { i with ExpiresAt := t }) i
  | ("blockchain_details", v) =>
    (match v with
     | .null => some { i with BlockchainDetails := none }
     | .obj ms =>
       (decodeFields blockchainDetailsSetField
           (i.BlockchainDetails.getD BlockchainDetails.zeroValue) ms).map
         fun d => { i with BlockchainDetails := some d }
     | _ => none)
  | _ => some i

def decodeInvoice (j : Json) : Option Invoice :=
  match j with
  | .null => some Invoice.zeroValue
  | .obj ms => decodeFields invoiceSetField Invoice.zeroValue ms
  | _ => none

def unmarshalInvoice (s : String) : Option Invoice :=
  (parseJsonStr s).bind decodeInvoice

def PaginationInfo.zeroValue : PaginationInfo := ⟨0, 0, 0, 0, false, false⟩

def paginationSetField (p : PaginationInfo) : String × Json → Option PaginationInfo
  | ("current_page", v) => setInt v (fun n => { p with CurrentPage := n }) p
  | ("page_size", v) => setInt v (fun n => { p with PageSize := n }) p
  | ("total_pages", v) => setInt v (fun n => { p with TotalPages := n }) p
  | ("total_records", v) => setInt v (fun n => { p with TotalRecords := n }) p
  | ("has_next", v) => setBool v (fun b => { p with HasNext := b }) p
  | ("has_previous", v) => setBool v (fun b => { p with HasPrevious := b }) p
  | _ => some p

def ListInvoicesResponse.zeroValue : ListInvoicesResponse :=
  ⟨[], PaginationInfo.zeroValue⟩

def listInvoicesResponseSetField (r : ListInvoicesResponse) :
    String × Json → Option ListInvoicesResponse
  | ("data", v) =>
    (match v with
     | .null => some { r with Data := [] }
     | .arr xs => (decodeList decodeInvoice xs).map fun l => { r with Data := l }
     | _ => none)
  | ("pagination", v) =>
    (match v with
     | .null => some r
     | .obj ms =>
       (decodeFields paginationSetField r.Pagination ms).map
         fun p => { r with Pagination := p }
     | _ => none)
  | _ => some r

def decodeListInvoicesResponse (j : Json) : Option ListInvoicesResponse :=
  match j with
  | .null => some ListInvoicesResponse.zeroValue
  | .obj ms => decodeFields listInvoicesResponseSetField ListInvoicesResponse.zeroValue ms
  | _ => none

def unmarshalListInvoicesResponse (s : String) : Option ListInvoicesResponse :=
  (parseJsonStr s).bind decodeListInvoicesResponse

def decodeRatPairs : List (String × Json) → Option (List (String × Rat))
  | [] => some []
  | (k, v) :: rest =>
    match v, decodeRatPairs rest with
    | .num q, some tail => some ((k, q) :: tail)
    | _, _ => none

def RatesResponse.zeroValue : RatesResponse := ⟨[]⟩

def ratesResponseSetField (r : RatesResponse) : String × Json → Option RatesResponse
  | ("rates", v) =>
    (match v with
     | .null => some r
     | .obj ms => (decodeRatPairs ms).map fun l => { r with Rates := l }
     | _ => none)
  | _ => some r

def decodeRatesResponse (j : Json) : Option RatesResponse :=
  match j with
  | .null => some RatesResponse.zeroValue
  | .obj ms => decodeFields ratesResponseSetField RatesResponse.zeroValue ms
  | _ => none

def unmarshalRatesResponse (s : String) : Option RatesResponse :=
  (parseJsonStr s).bind decodeRatesResponse

def WebhookSimulateResponse.zeroValue : WebhookSimulateResponse := ⟨"", ""⟩

def webhookSimulateResponseSetField (r : WebhookSimulateResponse) :
    String × Json → Option WebhookSimulateResponse
  | ("status", v) => setStr v (fun s => { r with Status := s }) r
  | ("message", v) => setStr v (fun s => { r with Message := s }) r
  | _ => some r

def decodeWebhookSimulateResponse (j : Json) : Option WebhookSimulateResponse :=
  match j with
  | .null => some WebhookSimulateResponse.zeroValue
  | .obj ms =>
    decodeFields webhookSimulateResponseSetField WebhookSimulateResponse.zeroValue ms
  | _ => none

def unmarshalWebhookSimulateResponse (s : String) : Option WebhookSimulateResponse :=
  (parseJsonStr s).bind decodeWebhookSimulateResponse

/-! ## Client and request execution (client.go)

The HTTP transport (c.httpClient.Do) is passed in explicitly as a function
from the built request to a transport result.  Side effects are recorded in
an event list: a stdout event for every fmt.Printf and an httpSend event
for every invocation of the transport.  The caller-supplied context, the
transport timeout, request-construction failure on a malformed base URL and
response-body read failure are not modelled; none of the claims concern
them.  Go error values are either plain errors produced by fmt.Errorf,
distinguishable only by their message text, or the typed *APIError. -/

def DefaultBaseURL : String := "https://api.itispay.com/api/v1"

structure Client where
  baseURL : String
  apiKey : String
deriving DecidableEq, Repr

/-- NewClient from client.go (the default timeout lives in the transport,
which is not part of the pure model). -/
def NewClient (apiKey : String) : Client :=
  ⟨DefaultBaseURL, apiKey⟩

structure HTTPRequest where
  method : String
  url : String
  headers : List (String × String)
  body : Option String
deriving DecidableEq, Repr

inductive TransportResult where
  | response (status : Nat) (body : String)
  | failure (msg : String)
deriving DecidableEq, Repr

def Transport : Type := HTTPRequest → TransportResult

inductive Event where
  | stdout (s : String)
  | httpSend (req : HTTPRequest)
deriving DecidableEq, Repr

/-- A Go error value: either a plain fmt.Errorf error carrying only its
message, or the typed *APIError that callers can detect by assertion. -/
inductive GoError where
  | errorf (msg : String)
  | apiError (e : APIError)
deriving DecidableEq, Repr

instance {e a : Type} [DecidableEq e] [DecidableEq a] : DecidableEq (Except e a) := fun
  | .error x, .error y =>
    if h : x = y then isTrue (by rw [h]) else isFalse (fun hh => by cases hh; exact h rfl)
  | .error _, .ok _ => isFalse (fun hh => by cases hh)
  | .ok _, .error _ => isFalse (fun hh => by cases hh)
  | .ok x, .ok y =>
    if h : x = y then isTrue (by rw [h]) else isFalse (fun hh => by cases hh; exact h rfl)

/-- Headers set by doRequest: Content-Type always, Api-key when the
configured key is non-empty. -/
def headersFor (c : Client) : List (String × String) :=
  [("Content-Type", "application/json")] ++
    (if c.apiKey = "" then [] else [("Api-key", c.apiKey)])

def buildRequest (c : Client) (method path : String) (body : Option String) :
    HTTPRequest :=
  ⟨method, c.baseURL ++ path, headersFor c, body⟩

/-- The send-and-interpret tail of doRequest, after body marshaling: build
the request, execute it, and map an error status onto an APIError when the
body decodes as an ErrorResponse and onto the plain formatted
HTTP-status/raw-body error otherwise. -/
def doSend (c : Client) (transport : Transport) (method path : String)
    (reqBody : Option String) : List Event × Except GoError String :=
  let req := buildRequest c method path reqBody
  match transport req with
  | .failure msg =>
    ([.httpSend req], .error (.errorf ("failed to execute request: " ++ msg)))
  | .response status respBody =>
    if 400 ≤ status then
      match unmarshalErrorResponse respBody with
      | none =>
        ([.httpSend req],
         .error (.errorf ("HTTP " ++ toString status ++ ": " ++ respBody)))
      | some apiErr =>
        ([.httpSend req],
         .error (.apiError ⟨status, apiErr.Error, apiErr.Message⟩))
    else ([.httpSend req], .ok respBody)

/-- doRequest from client.go.  The body argument carries the marshal
outcome of the optional payload: none for a nil body, and otherwise the
result of json.Marshal on the supplied value. -/
def doRequest (c : Client) (transport : Transport) (method path : String)
    (body : Option (Except String String)) : List Event × Except GoError String :=
  match body with
  | some (.error e) =>
    ([], .error (.errorf ("failed to marshal request body: " ++ e)))
  | some (.ok s) => doSend c transport method path (some s)
  | none => doSend c transport method path none

/-- The shared decode step of every endpoint method: propagate a doRequest
error, decode the success body, and report a plain unmarshal error when
the body does not fit the expected shape (the wrapped cause text is not
modelled). -/
def bindDecode {α : Type} (res : Except GoError String) (dec : String → Option α)
    (emsg : String) : Except GoError α :=
  match res with
  | .error e => .error e
  | .ok body =>
    match dec body with
    | none => .error (.errorf emsg)
    | some v => .ok v

/-- CreateInvoice from client.go, including the unconditional debug print
of the MarshalIndent rendering of the request before doRequest is called. -/
def CreateInvoice (c : Client) (transport : Transport)
    (req : CreateInvoiceRequest) : List Event × Except GoError Invoice :=
  let reqJSON := marshalIndentCreateInvoiceRequest req
  let printed := Event.stdout ("DEBUG: Creating invoice with request:\n" ++ reqJSON ++ "\n")
  let r := doRequest c transport "POST" "/invoices"
    (some (.ok (marshalCreateInvoiceRequest req)))
  (printed :: r.1, bindDecode r.2 unmarshalInvoice "failed to unmarshal invoice response")

/-- GetInvoice from client.go: the invoice id is concatenated into the
path verbatim. -/
def GetInvoice (c : Client) (transport : Transport) (invoiceID : String) :
    List Event × Except GoError Invoice :=
  let r := doRequest c transport "GET" ("/invoices/" ++ invoiceID) none
  (r.1, bindDecode r.2 unmarshalInvoice "failed to unmarshal invoice response")

/-- The url.Values built by ListInvoices, in Set order.  The eight keys
are distinct, so the Go map content is exactly this association list. -/
def listInvoicesQuery (params : ListInvoicesParams) : List (String × String) :=
  (if 0 < params.Page then [("page", toString params.Page)] else [])
  ++ (if 0 < params.PageSize then [("page_size", toString params.PageSize)] else [])
  ++ (if params.Status = "" then [] else [("status", params.Status)])
  ++ (if params.Currency = "" then [] else [("currency", params.Currency)])
  ++ (if params.CreatedAfter.IsZero then []
      else [("created_after", params.CreatedAfter.formatRFC3339)])
  ++ (if params.CreatedBefore.IsZero then []
      else [("created_before", params.CreatedBefore.formatRFC3339)])
  ++ (if params.SortBy = "" then [] else [("sort_by", params.SortBy)])
  ++ (if params.SortOrder = "" then [] else [("sort_order", params.SortOrder)])

/-- The request path built by ListInvoices: bare /invoices when no
parameter is set, otherwise /invoices? followed by the Encode output. -/
def buildListInvoicesPath (params : ListInvoicesParams) : String :=
  if listInvoicesQuery params = [] then "/invoices"
  else "/invoices?" ++ encodeQueryValues (listInvoicesQuery params)

def ListInvoices (c : Client) (transport : Transport)
    (params : ListInvoicesParams) : List Event × Except GoError ListInvoicesResponse :=
  let r := doRequest c transport "GET" (buildListInvoicesPath params) none
  (r.1, bindDecode r.2 unmarshalListInvoicesResponse "failed to unmarshal invoices response")

/-- GetCurrencies from client.go: the remote endpoint answers with a bare
JSON array, which the method wraps into a CurrenciesResponse. -/
def GetCurrencies (c : Client) (transport : Transport) :
    List Event × Except GoError CurrenciesResponse :=
  let r := doRequest c transport "GET" "/currencies" none
  (r.1, bindDecode r.2 (fun body => (unmarshalCurrencyList body).map CurrenciesResponse.mk)
    "failed to unmarshal currencies response")

def GetRates (c : Client) (transport : Transport) :
    List Event × Except GoError RatesResponse :=
  let r := doRequest c transport "GET" "/rates" none
  (r.1, bindDecode r.2 unmarshalRatesResponse "failed to unmarshal rates response")

/-- UpdateInvoiceStatus from client.go: the invoice id is concatenated
into the path verbatim and the body is the marshalled UpdateInvoiceRequest. -/
def UpdateInvoiceStatus (c : Client) (transport : Transport)
    (invoiceID status : String) : List Event × Except GoError Invoice :=
  let req : UpdateInvoiceRequest := ⟨status⟩
  let r := doRequest c transport "PATCH" ("/invoices/" ++ invoiceID)
    (some (.ok (marshalUpdateInvoiceRequest req)))
  (r.1, bindDecode r.2 unmarshalInvoice "failed to unmarshal invoice response")

def SimulateWebhook (c : Client) (transport : Transport)
    (invoiceID status : String) : List Event × Except GoError WebhookSimulateResponse :=
  let req : WebhookSimulateRequest := ⟨invoiceID, status⟩
  let r := doRequest c transport "POST" "/webhooks/simulate"
    (some (.ok (marshalWebhookSimulateRequest req)))
  (r.1, bindDecode r.2 unmarshalWebhookSimulateResponse
    "failed to unmarshal webhook simulate response")

/-! ## Helper lemmas -/

theorem doSend_events (c : Client) (t : Transport) (method path : String)
    (rb : Option String) :
    (doSend c t method path rb).1 = [.httpSend (buildRequest c method path rb)] := by
  cases h : t (buildRequest c method path rb) with
  | failure m => simp [doSend, h]
  | response s b =>
    by_cases h4 : 400 ≤ s
    · cases hu : unmarshalErrorResponse b <;> simp [doSend, h, h4, hu]
    · simp [doSend, h, h4]

theorem doRequest_events_ok (c : Client) (t : Transport) (method path s : String) :
    (doRequest c t method path (some (.ok s))).1
      = [.httpSend (buildRequest c method path (some s))] :=
  doSend_events c t method path (some s)

theorem doRequest_events_none (c : Client) (t : Transport) (method path : String) :
    (doRequest c t method path none).1
      = [.httpSend (buildRequest c method path none)] :=
  doSend_events c t method path none

theorem doSend_snd_fallback (c : Client) (status : Nat) (body method path : String)
    (rb : Option String) (h4 : 400 ≤ status)
    (hn : unmarshalErrorResponse body = none) :
    (doSend c (fun _ => .response status body) method path rb).2
      = .error (.errorf ("HTTP " ++ toString status ++ ": " ++ body)) := by
  simp [doSend, h4, hn]

theorem doSend_snd_apiError (c : Client) (status : Nat) (body method path : String)
    (rb : Option String) (er : ErrorResponse) (h4 : 400 ≤ status)
    (hu : unmarshalErrorResponse body = some er) :
    (doSend c (fun _ => .response status body) method path rb).2
      = .error (.apiError ⟨status, er.Error, er.Message⟩) := by
  simp [doSend, h4, hu]

theorem doSend_snd_ok (c : Client) (status : Nat) (body method path : String)
    (rb : Option String) (h4 : ¬ 400 ≤ status) :
    (doSend c (fun _ => .response status body) method path rb).2 = .ok body := by
  simp [doSend, h4]

theorem bindDecode_error {α : Type} (e : GoError) (dec : String → Option α)
    (emsg : String) : bindDecode (.error e) dec emsg = .error e := rfl

/-! ## Claims -/

/-- Claim C1, counterexample: with status 401 and body `not json` (which
does not decode as an ErrorResponse), doRequest does not fail with the
typed API error carrying status 401, empty type and message `not json`
that the claim asserts; it fails with the plain formatted error
`HTTP 401: not json` produced by fmt.Errorf, and GetInvoice propagates
that same plain error. -/
theorem claim_C1_counterexample :
    (doRequest (NewClient "key") (fun _ => .response 401 "not json")
        "GET" "/invoices/abc" none).2
      = .error (.errorf "HTTP 401: not json")
    ∧ (doRequest (NewClient "key") (fun _ => .response 401 "not json")
        "GET" "/invoices/abc" none).2
      ≠ .error (.apiError ⟨401, "", "not json"⟩)
    ∧ (GetInvoice (NewClient "key") (fun _ => .response 401 "not json") "abc").2
      ≠ .error (.apiError ⟨401, "", "not json"⟩) := by
  refine ⟨by decide, by decide, by decide⟩

/-- Claim C1 (amended): for every HTTP response with status at least 400
whose body fails to decode as the structured error object, doRequest (and
hence every endpoint method) fails with a plain formatted error (not the
typed API error) whose message is `HTTP <status>: <raw body>`; in
particular for body `not json` the error message is `HTTP <status>: not
json`, and no typed API error (with any field values) is produced. -/
theorem claim_C1_fallback_plain_error (c : Client) (status : Nat) (body : String)
    (h4 : 400 ≤ status) (hn : unmarshalErrorResponse body = none) :
    let t : Transport := fun _ => .response status body
    let fallback : GoError := .errorf ("HTTP " ++ toString status ++ ": " ++ body)
    (∀ method path mb, (doRequest c t method path (some (.ok mb))).2 = .error fallback)
    ∧ (∀ method path, (doRequest c t method path none).2 = .error fallback)
    ∧ (∀ req, (CreateInvoice c t req).2 = .error fallback)
    ∧ (∀ id, (GetInvoice c t id).2 = .error fallback)
    ∧ (∀ params, (ListInvoices c t params).2 = .error fallback)
    ∧ (GetCurrencies c t).2 = .error fallback
    ∧ (GetRates c t).2 = .error fallback
    ∧ (∀ id st, (UpdateInvoiceStatus c t id st).2 = .error fallback)
    ∧ (∀ id st, (SimulateWebhook c t id st).2 = .error fallback)
    ∧ (∀ a : APIError, fallback ≠ .apiError a) := by
  intro t fallback
  have hok : ∀ method path mb,
      (doRequest c t method path (some (.ok mb))).2 = .error fallback :=
    fun method path mb => doSend_snd_fallback c status body method path (some mb) h4 hn
  have hnone : ∀ method path,
      (doRequest c t method path none).2 = .error fallback :=
    fun method path => doSend_snd_fallback c status body method path none h4 hn
  refine ⟨hok, hnone, ?_, ?_, ?_, ?_, ?_, ?_, ?_, fun a h => GoError.noConfusion h⟩
  · intro req
    show bindDecode (doRequest c t "POST" "/invoices"
        (some (.ok (marshalCreateInvoiceRequest req)))).2 unmarshalInvoice _ = _
    rw [hok]; rfl
  · intro id
    show bindDecode (doRequest c t "GET" ("/invoices/" ++ id) none).2
        unmarshalInvoice _ = _
    rw [hnone]; rfl
  · intro params
    show bindDecode (doRequest c t "GET" (buildListInvoicesPath params) none).2
        unmarshalListInvoicesResponse _ = _
    rw [hnone]; rfl
  · show bindDecode (doRequest c t "GET" "/currencies" none).2 _ _ = _
    rw [hnone]; rfl
  · show bindDecode (doRequest c t "GET" "/rates" none).2 _ _ = _
    rw [hnone]; rfl
  · intro id st
    show bindDecode (doRequest c t "PATCH" ("/invoices/" ++ id)
        (some (.ok (marshalUpdateInvoiceRequest ⟨st⟩)))).2 unmarshalInvoice _ = _
    rw [hok]; rfl
  · intro id st
    show bindDecode (doRequest c t "POST" "/webhooks/simulate"
        (some (.ok (marshalWebhookSimulateRequest ⟨id, st⟩)))).2 _ _ = _
    rw [hok]; rfl

/-- Witness for claim C1 (amended) at status 503 and body `not json`. -/
theorem claim_C1_witness :
    (GetCurrencies (NewClient "key") (fun _ => .response 503 "not json")).2
      = .error (.errorf "HTTP 503: not json") :=
  (claim_C1_fallback_plain_error (NewClient "key") 503 "not json"
    (by decide) (by decide)).2.2.2.2.2.1

/-- Claim C2: for every endpoint method and every HTTP response with
status at least 400 whose body decodes as the structured error object,
the method returns no result and exactly one typed API error carrying the
numeric status code, the decoded error-type string and the decoded
message. -/
theorem claim_C2_api_error_decoded (c : Client) (status : Nat) (body : String)
    (er : ErrorResponse) (h4 : 400 ≤ status)
    (hu : unmarshalErrorResponse body = some er) :
    let t : Transport := fun _ => .response status body
    let apiErr : GoError := .apiError ⟨status, er.Error, er.Message⟩
    (∀ method path mb, (doRequest c t method path (some (.ok mb))).2 = .error apiErr)
    ∧ (∀ method path, (doRequest c t method path none).2 = .error apiErr)
    ∧ (∀ req, (CreateInvoice c t req).2 = .error apiErr)
    ∧ (∀ id, (GetInvoice c t id).2 = .error apiErr)
    ∧ (∀ params, (ListInvoices c t params).2 = .error apiErr)
    ∧ (GetCurrencies c t).2 = .error apiErr
    ∧ (GetRates c t).2 = .error apiErr
    ∧ (∀ id st, (UpdateInvoiceStatus c t id st).2 = .error apiErr)
    ∧ (∀ id st, (SimulateWebhook c t id st).2 = .error apiErr) := by
  intro t apiErr
  have hok : ∀ method path mb,
      (doRequest c t method path (some (.ok mb))).2 = .error apiErr :=
    fun method path mb => doSend_snd_apiError c status body method path (some mb) er h4 hu
  have hnone : ∀ method path,
      (doRequest c t method path none).2 = .error apiErr :=
    fun method path => doSend_snd_apiError c status body method path none er h4 hu
  refine ⟨hok, hnone, ?_, ?_, ?_, ?_, ?_, ?_, ?_⟩
  · intro req
    show bindDecode (doRequest c t "POST" "/invoices"
        (some (.ok (marshalCreateInvoiceRequest req)))).2 unmarshalInvoice _ = _
    rw [hok]; rfl
  · intro id
    show bindDecode (doRequest c t "GET" ("/invoices/" ++ id) none).2
        unmarshalInvoice _ = _
    rw [hnone]; rfl
  · intro params
    show bindDecode (doRequest c t "GET" (buildListInvoicesPath params) none).2
        unmarshalListInvoicesResponse _ = _
    rw [hnone]; rfl
  · show bindDecode (doRequest c t "GET" "/currencies" none).2 _ _ = _
    rw [hnone]; rfl
  · show bindDecode (doRequest c t "GET" "/rates" none).2 _ _ = _
    rw [hnone]; rfl
  · intro id st
    show bindDecode (doRequest c t "PATCH" ("/invoices/" ++ id)
        (some (.ok (marshalUpdateInvoiceRequest ⟨st⟩)))).2 unmarshalInvoice _ = _
    rw [hok]; rfl
  · intro id st
    show bindDecode (doRequest c t "POST" "/webhooks/simulate"
        (some (.ok (marshalWebhookSimulateRequest ⟨id, st⟩)))).2 _ _ = _
    rw [hok]; rfl

/-- Witness for claim C2: status 401 with the documented invalid-key body
makes GetInvoice fail with the typed API error exposing status 401, type
invalid_key and the human message. -/
theorem claim_C2_witness :
    (GetInvoice (NewClient "test-key")
        (fun _ => .response 401
          "\x7b\"error\":\"invalid_key\",\"message\":\"API key is invalid\"\x7d")
        "inv1").2
      = .error (.apiError ⟨401, "invalid_key", "API key is invalid"⟩) :=
  (claim_C2_api_error_decoded (NewClient "test-key") 401
    "\x7b\"error\":\"invalid_key\",\"message\":\"API key is invalid\"\x7d"
    ⟨"invalid_key", "API key is invalid"⟩ (by decide) (by decide)).2.2.2.1 "inv1"

/-- Claim C3, counterexample: the invoice id `a?b` is embedded in the
GetInvoice request URL verbatim, not path-escaped: the sent request URL
ends in `/invoices/a?b`, while path-escaping the id would produce
`/invoices/a%3Fb`; the two URLs differ, so the id is not path-escaped
before being embedded. -/
theorem claim_C3_counterexample :
    (GetInvoice (NewClient "key") (fun _ => .response 200 "null") "a?b").1
      = [.httpSend ⟨"GET", DefaultBaseURL ++ "/invoices/a?b",
          [("Content-Type", "application/json"), ("Api-key", "key")], none⟩]
    ∧ pathEscape "a?b" = "a%3Fb"
    ∧ DefaultBaseURL ++ "/invoices/a?b"
      ≠ DefaultBaseURL ++ "/invoices/" ++ pathEscape "a?b" := by
  refine ⟨by decide, by decide, by decide⟩

/-- Claim C3 (amended): the invoice id passed to GetInvoice (and
UpdateInvoiceStatus) is concatenated into the request path verbatim, with
no escaping, so ids containing reserved URL characters do alter the path
structure. -/
theorem claim_C3_id_embedded_verbatim (c : Client) (t : Transport) (id st : String) :
    (GetInvoice c t id).1
      = [.httpSend (buildRequest c "GET" ("/invoices/" ++ id) none)]
    ∧ (UpdateInvoiceStatus c t id st).1
      = [.httpSend (buildRequest c "PATCH" ("/invoices/" ++ id)
          (some (marshalUpdateInvoiceRequest ⟨st⟩)))] := by
  constructor
  · show (doRequest c t "GET" ("/invoices/" ++ id) none).1 = _
    exact doRequest_events_none c t "GET" ("/invoices/" ++ id)
  · show (doRequest c t "PATCH" ("/invoices/" ++ id)
        (some (.ok (marshalUpdateInvoiceRequest ⟨st⟩)))).1 = _
    exact doRequest_events_ok c t "PATCH" ("/invoices/" ++ id)
      (marshalUpdateInvoiceRequest ⟨st⟩)

theorem key_mem_ite_iff {b : Type} {c : Prop} [Decidable c] (s k : String) (v : b) :
    (s ∈ ((if c then [(k, v)] else []) : List (String × b)).map Prod.fst)
      ↔ (c ∧ s = k) := by
  split <;> simp [*]

theorem key_mem_ite_neg_iff {b : Type} {c : Prop} [Decidable c] (s k : String) (v : b) :
    (s ∈ ((if c then [] else [(k, v)]) : List (String × b)).map Prod.fst)
      ↔ (¬ c ∧ s = k) := by
  split <;> simp [*]

/-- Which keys appear in the ListInvoices query values, by the non-default
conditions of the source. -/
theorem listInvoicesQuery_keys (p : ListInvoicesParams) :
    (("page" ∈ (listInvoicesQuery p).map Prod.fst) ↔ 0 < p.Page)
    ∧ (("page_size" ∈ (listInvoicesQuery p).map Prod.fst) ↔ 0 < p.PageSize)
    ∧ (("status" ∈ (listInvoicesQuery p).map Prod.fst) ↔ p.Status ≠ "")
    ∧ (("currency" ∈ (listInvoicesQuery p).map Prod.fst) ↔ p.Currency ≠ "")
    ∧ (("created_after" ∈ (listInvoicesQuery p).map Prod.fst)
        ↔ p.CreatedAfter.IsZero = false)
    ∧ (("created_before" ∈ (listInvoicesQuery p).map Prod.fst)
        ↔ p.CreatedBefore.IsZero = false)
    ∧ (("sort_by" ∈ (listInvoicesQuery p).map Prod.fst) ↔ p.SortBy ≠ "")
    ∧ (("sort_order" ∈ (listInvoicesQuery p).map Prod.fst) ↔ p.SortOrder ≠ "") := by
  refine ⟨?_, ?_, ?_, ?_, ?_, ?_, ?_, ?_⟩ <;>
    simp [listInvoicesQuery, List.map_append, List.mem_append,
      key_mem_ite_iff, key_mem_ite_neg_iff, Bool.not_eq_true]


/-- Claim C4, counterexample: with Status `new` and Currency `BTC` set
(all else default), the encoded query string is
`currency=BTC&status=new` — url.Values.Encode sorts keys alphabetically —
and not `status=new&currency=BTC` as the claimed precedence
page, page_size, status, currency, ... would produce. -/
theorem claim_C4_counterexample :
    buildListInvoicesPath ⟨0, 0, "new", "BTC", GoTime.zero, GoTime.zero, "", ""⟩
      = "/invoices?currency=BTC&status=new"
    ∧ buildListInvoicesPath ⟨0, 0, "new", "BTC", GoTime.zero, GoTime.zero, "", ""⟩
      ≠ "/invoices?status=new&currency=BTC" := by
  refine ⟨by decide, by decide⟩

/-- Claim C4 (amended): the non-default query parameters (page when
positive, page_size when positive, status, currency, sort_by, sort_order
when non-empty, created_after and created_before when not the zero
timestamp) are appended to the query string sorted alphabetically by
parameter name, as url.Values.Encode sorts keys; the construction is a
pure function of the params value and hence deterministic. -/
theorem claim_C4_query_sorted (p : ListInvoicesParams) :
    List.Sorted keyLE (sortPairs (listInvoicesQuery p))
    ∧ ((("page" ∈ (listInvoicesQuery p).map Prod.fst) ↔ 0 < p.Page)
      ∧ (("page_size" ∈ (listInvoicesQuery p).map Prod.fst) ↔ 0 < p.PageSize)
      ∧ (("status" ∈ (listInvoicesQuery p).map Prod.fst) ↔ p.Status ≠ "")
      ∧ (("currency" ∈ (listInvoicesQuery p).map Prod.fst) ↔ p.Currency ≠ "")
      ∧ (("created_after" ∈ (listInvoicesQuery p).map Prod.fst)
          ↔ p.CreatedAfter.IsZero = false)
      ∧ (("created_before" ∈ (listInvoicesQuery p).map Prod.fst)
          ↔ p.CreatedBefore.IsZero = false)
      ∧ (("sort_by" ∈ (listInvoicesQuery p).map Prod.fst) ↔ p.SortBy ≠ "")
      ∧ (("sort_order" ∈ (listInvoicesQuery p).map Prod.fst) ↔ p.SortOrder ≠ ""))
    ∧ (∀ q, p = q → buildListInvoicesPath p = buildListInvoicesPath q) :=
  ⟨List.sorted_insertionSort keyLE (listInvoicesQuery p),
   listInvoicesQuery_keys p,
   fun _ h => by rw [h]⟩

/-- Witness for claim C4 (amended) at a concrete params value. -/
theorem claim_C4_witness :
    buildListInvoicesPath ⟨1, 20, "completed", "", GoTime.zero, GoTime.zero, "", "asc"⟩
      = buildListInvoicesPath ⟨1, 20, "completed", "", GoTime.zero, GoTime.zero, "", "asc"⟩ :=
  (claim_C4_query_sorted
      ⟨1, 20, "completed", "", GoTime.zero, GoTime.zero, "", "asc"⟩).2.2
    ⟨1, 20, "completed", "", GoTime.zero, GoTime.zero, "", "asc"⟩ rfl

/-- Claim C5: an all-default params value yields exactly the path
/invoices with no question mark and no locally invented defaults, while
Page=2 and PageSize=10 yield exactly /invoices?page=2&page_size=10; in
general a parameter key is included exactly when its value is non-default. -/
theorem claim_C5_default_paths :
    buildListInvoicesPath ⟨0, 0, "", "", GoTime.zero, GoTime.zero, "", ""⟩ = "/invoices"
    ∧ buildListInvoicesPath ⟨2, 10, "", "", GoTime.zero, GoTime.zero, "", ""⟩
      = "/invoices?page=2&page_size=10"
    ∧ ∀ p : ListInvoicesParams,
        (("page" ∈ (listInvoicesQuery p).map Prod.fst) ↔ 0 < p.Page)
        ∧ (("page_size" ∈ (listInvoicesQuery p).map Prod.fst) ↔ 0 < p.PageSize)
        ∧ (("status" ∈ (listInvoicesQuery p).map Prod.fst) ↔ p.Status ≠ "")
        ∧ (("currency" ∈ (listInvoicesQuery p).map Prod.fst) ↔ p.Currency ≠ "")
        ∧ (("created_after" ∈ (listInvoicesQuery p).map Prod.fst)
            ↔ p.CreatedAfter.IsZero = false)
        ∧ (("created_before" ∈ (listInvoicesQuery p).map Prod.fst)
            ↔ p.CreatedBefore.IsZero = false)
        ∧ (("sort_by" ∈ (listInvoicesQuery p).map Prod.fst) ↔ p.SortBy ≠ "")
        ∧ (("sort_order" ∈ (listInvoicesQuery p).map Prod.fst) ↔ p.SortOrder ≠ "") :=
  ⟨by decide, by decide, fun p => listInvoicesQuery_keys p⟩

/-- Claim C6: in the JSON body serialized by CreateInvoice, the key
fiat_amount is present exactly when FiatAmount is set (and likewise
crypto_amount, allowed_error_percent and expire_min): an unset optional
field is omitted entirely rather than emitted as zero or null, while a
field set to a pointer at an explicit zero is emitted with value 0, and
the body sent by CreateInvoice is exactly the rendering of this object. -/
theorem claim_C6_optional_fields_omitted (r : CreateInvoiceRequest) :
    (("fiat_amount" ∈ (encodeCreateInvoiceRequest r).map Prod.fst)
      ↔ r.FiatAmount.isSome = true)
    ∧ (("crypto_amount" ∈ (encodeCreateInvoiceRequest r).map Prod.fst)
      ↔ r.CryptoAmount.isSome = true)
    ∧ (("allowed_error_percent" ∈ (encodeCreateInvoiceRequest r).map Prod.fst)
      ↔ r.AllowedErrorPercent.isSome = true)
    ∧ (("expire_min" ∈ (encodeCreateInvoiceRequest r).map Prod.fst)
      ↔ r.ExpireMin.isSome = true)
    ∧ (∀ q, r.FiatAmount = some q →
        ("fiat_amount", Json.num q) ∈ encodeCreateInvoiceRequest r)
    ∧ (∀ c t, Event.httpSend (buildRequest c "POST" "/invoices"
        (some (renderJson (.obj (encodeCreateInvoiceRequest r)))))
          ∈ (CreateInvoice c t r).1) := by
  obtain ⟨oid, fa, fc, ca, cur, aep, onm, em, cb⟩ := r
  refine ⟨?_, ?_, ?_, ?_, ?_, ?_⟩
  · cases fa <;> cases ca <;> cases aep <;> cases em <;>
      simp [encodeCreateInvoiceRequest, List.map_append, List.mem_append,
        key_mem_ite_iff, key_mem_ite_neg_iff]
  · cases fa <;> cases ca <;> cases aep <;> cases em <;>
      simp [encodeCreateInvoiceRequest, List.map_append, List.mem_append,
        key_mem_ite_iff, key_mem_ite_neg_iff]
  · cases fa <;> cases ca <;> cases aep <;> cases em <;>
      simp [encodeCreateInvoiceRequest, List.map_append, List.mem_append,
        key_mem_ite_iff, key_mem_ite_neg_iff]
  · cases fa <;> cases ca <;> cases aep <;> cases em <;>
      simp [encodeCreateInvoiceRequest, List.map_append, List.mem_append,
        key_mem_ite_iff, key_mem_ite_neg_iff]
  · intro q hq
    cases fa with
    | none => exact absurd hq (by simp)
    | some q0 =>
      have hq0 : q0 = q := by injection hq
      subst hq0
      simp [encodeCreateInvoiceRequest]
  · intro c t
    have h := doRequest_events_ok c t "POST" "/invoices"
      (marshalCreateInvoiceRequest ⟨oid, fa, fc, ca, cur, aep, onm, em, cb⟩)
    rw [show (CreateInvoice c t ⟨oid, fa, fc, ca, cur, aep, onm, em, cb⟩).1
        = _ :: (doRequest c t "POST" "/invoices"
          (some (.ok (marshalCreateInvoiceRequest
            ⟨oid, fa, fc, ca, cur, aep, onm, em, cb⟩)))).1 from rfl, h]
    simp [marshalCreateInvoiceRequest]

/-- Witness for claim C6: FiatAmount set to an explicit zero is emitted
as the key fiat_amount with value 0 rather than omitted. -/
theorem claim_C6_witness :
    ("fiat_amount", Json.num 0) ∈ encodeCreateInvoiceRequest
      ⟨"ORD-1", some 0, "EUR", none, "BTC", none, "", none, ""⟩ :=
  (claim_C6_optional_fields_omitted
    ⟨"ORD-1", some 0, "EUR", none, "BTC", none, "", none, ""⟩).2.2.2.2.1 0 rfl

theorem decodeList_length {α : Type} (f : Json → Option α) :
    ∀ {l : List Json} {l2 : List α}, decodeList f l = some l2 → l2.length = l.length := by
  intro l
  induction l with
  | nil => intro l2 h; cases h; rfl
  | cons x xs ih =>
    intro l2 h
    unfold decodeList at h
    cases hfx : f x with
    | none => rw [hfx] at h; cases h
    | some a =>
      rw [hfx] at h
      cases hrec : decodeList f xs with
      | none => rw [hrec] at h; cases h
      | some rest =>
        rw [hrec] at h
        cases h
        simp [ih hrec]

theorem decodeList_get {α : Type} (f : Json → Option α) :
    ∀ {l : List Json} {l2 : List α}, decodeList f l = some l2 →
      ∀ i (hi : i < l.length) (hi2 : i < l2.length),
        f (l.get ⟨i, hi⟩) = some (l2.get ⟨i, hi2⟩) := by
  intro l
  induction l with
  | nil => intro l2 h i hi; exact absurd hi (Nat.not_lt_zero i)
  | cons x xs ih =>
    intro l2 h i hi hi2
    unfold decodeList at h
    cases hfx : f x with
    | none => rw [hfx] at h; cases h
    | some a =>
      rw [hfx] at h
      cases hrec : decodeList f xs with
      | none => rw [hrec] at h; cases h
      | some rest =>
        rw [hrec] at h
        cases h
        cases i with
        | zero => exact hfx
        | succ j => exact ih hrec j (Nat.lt_of_succ_lt_succ hi) (Nat.lt_of_succ_lt_succ hi2)

/-- Claim C7: for every 2xx response to GetCurrencies whose body is a
bare JSON array whose elements all decode as Currency values, the method
returns a CurrenciesResponse wrapper holding exactly the decoded
elements, in array order (same length, and the element at every index is
the decoding of the array element at that index). -/
theorem claim_C7_currencies_wrap_order (c : Client) (status : Nat) (body : String)
    (elems : List Json) (cs : List Currency)
    (h2a : 200 ≤ status) (h2b : status < 300)
    (hp : parseJsonStr body = some (.arr elems))
    (hd : decodeList decodeCurrency elems = some cs) :
    (GetCurrencies c (fun _ => .response status body)).2 = .ok ⟨cs⟩
    ∧ cs.length = elems.length
    ∧ ∀ i (hi : i < elems.length) (hi2 : i < cs.length),
        decodeCurrency (elems.get ⟨i, hi⟩) = some (cs.get ⟨i, hi2⟩) := by
  refine ⟨?_, decodeList_length decodeCurrency hd, decodeList_get decodeCurrency hd⟩
  have hsnd : (doRequest c (fun _ => .response status body) "GET" "/currencies" none).2
      = .ok body :=
    doSend_snd_ok c status body "GET" "/currencies" none (by omega)
  show bindDecode (doRequest c (fun _ => .response status body) "GET" "/currencies" none).2
      (fun b => (unmarshalCurrencyList b).map CurrenciesResponse.mk) _ = _
  rw [hsnd]
  have hu : unmarshalCurrencyList body = some cs := by
    unfold unmarshalCurrencyList
    rw [hp]
    exact hd
  simp [bindDecode, hu]

/-- Witness for claim C7 at a one-element currency array body. -/
theorem claim_C7_witness :
    (GetCurrencies (NewClient "key")
      (fun _ => .response 200
        "[\x7b\"currency_code\":\"BTC\",\"is_crypto\":true,\"precision\":8,\"is_active\":true,\"created_at\":\"2024-01-15T10:30:00Z\"\x7d]")).2
      = .ok ⟨[⟨"BTC", true, 8, true, "", "", ⟨2024, 1, 15, 10, 30, 0⟩⟩]⟩ :=
  (claim_C7_currencies_wrap_order (NewClient "key") 200
    "[\x7b\"currency_code\":\"BTC\",\"is_crypto\":true,\"precision\":8,\"is_active\":true,\"created_at\":\"2024-01-15T10:30:00Z\"\x7d]"
    [Json.obj [("currency_code", .str "BTC"), ("is_crypto", .bool true),
      ("precision", .num 8), ("is_active", .bool true),
      ("created_at", .str "2024-01-15T10:30:00Z")]]
    [⟨"BTC", true, 8, true, "", "", ⟨2024, 1, 15, 10, 30, 0⟩⟩]
    (by decide) (by decide) (by rfl) (by decide)).1

/-- Claim C8: when the payload fails to serialize, doRequest reports the
local marshal error immediately with an empty event list — the transport
function is never invoked, for any transport — and that error is neither
the typed API error nor a transport-failure error (whose message carries a
different prefix). -/
theorem claim_C8_marshal_failure_local (c : Client) (t : Transport)
    (method path e : String) :
    doRequest c t method path (some (.error e))
      = ([], .error (.errorf ("failed to marshal request body: " ++ e)))
    ∧ (∀ a : APIError,
        GoError.errorf ("failed to marshal request body: " ++ e) ≠ .apiError a)
    ∧ (∀ m : String,
        ("failed to marshal request body: " ++ e)
          ≠ ("failed to execute request: " ++ m)) := by
  refine ⟨rfl, fun a h => GoError.noConfusion h, fun m h => ?_⟩
  have hd : ("failed to marshal request body: ").data ++ e.data
      = ("failed to execute request: ").data ++ m.data := by
    have h2 := congrArg String.data h
    simp only [String.data_append] at h2
    exact h2
  have h1 : (("failed to marshal request body: ").data ++ e.data).get? 10
      = some 'm' := by
    rw [List.get?_append (by decide)]
    rfl
  rw [hd, List.get?_append (by decide)] at h1
  exact absurd h1 (by decide)

/-- Witness for claim C8 at a concrete failing marshal outcome. -/
theorem claim_C8_witness :
    doRequest (NewClient "key") (fun _ => .response 200 "irrelevant")
        "POST" "/invoices" (some (.error "unsupported type"))
      = ([], .error (.errorf "failed to marshal request body: unsupported type")) :=
  (claim_C8_marshal_failure_local (NewClient "key")
    (fun _ => .response 200 "irrelevant") "POST" "/invoices" "unsupported type").1

/-- Claim C9: every invocation of CreateInvoice, with any client, any
transport and any request, first emits the debug print of the indented
serialized payload on stdout and only then performs the single HTTP send;
no configuration can disable the print. -/
theorem claim_C9_debug_print_unconditional (c : Client) (t : Transport)
    (req : CreateInvoiceRequest) :
    (CreateInvoice c t req).1
      = [.stdout ("DEBUG: Creating invoice with request:\n"
          ++ marshalIndentCreateInvoiceRequest req ++ "\n"),
         .httpSend (buildRequest c "POST" "/invoices"
          (some (marshalCreateInvoiceRequest req)))] := by
  rw [show (CreateInvoice c t req).1
      = Event.stdout ("DEBUG: Creating invoice with request:\n"
          ++ marshalIndentCreateInvoiceRequest req ++ "\n")
        :: (doRequest c t "POST" "/invoices"
          (some (.ok (marshalCreateInvoiceRequest req)))).1 from rfl,
    doRequest_events_ok]

/-- Claim C10: APIError.Error returns the Message field when it is
non-empty and the ErrorType field otherwise, and its result is
independent of the status code, so the rendered string never draws on the
status code. -/
theorem claim_C10_error_method (e : APIError) :
    APIError.Error e = (if e.Message ≠ "" then e.Message else e.ErrorType)
    ∧ (e.Message ≠ "" → APIError.Error e = e.Message)
    ∧ (e.Message = "" → APIError.Error e = e.ErrorType)
    ∧ (∀ s : Nat, APIError.Error ⟨s, e.ErrorType, e.Message⟩ = APIError.Error e) := by
  refine ⟨rfl, ?_, ?_, fun s => rfl⟩
  · intro h
    simp [APIError.Error, h]
  · intro h
    simp [APIError.Error, h]

/-- Witness for claim C10: with an empty message the rendered error
string is the error type. -/
theorem claim_C10_witness :
    APIError.Error ⟨404, "not_found", ""⟩ = "not_found" :=
  (claim_C10_error_method ⟨404, "not_found", ""⟩).2.2.1 rfl
